import Mathlib

/-!
Verification of the CORSIKA plotter core: the fixed-layout particle-track
record decoder, the table construction on top of it, the particle catalog,
and the derived-metrics engine (shower-start altitude, radial photon
density, height-binned particle counts).

Byte sources are modelled as lists of naturals (one per byte); 32-bit
float payload words are kept as their little-endian bit patterns, since
the decoding claims only concern framing, lengths and NaN-ness.
-/

namespace Showerpy

/-- Failure raised while decoding a particle-track file: a mismatch of the
two framing length markers, or a struct unpack failure. -/
inductive DecodeErr where
  | markerMismatch (m1 m2 : ℤ)
  | structError
deriving DecidableEq

/-- Little-endian signed 32-bit integer from four bytes, as struct.unpack
with format i produces it. -/
def int32OfBytes (b0 b1 b2 b3 : ℕ) : ℤ :=
  let u : ℕ := b0 + 256 * b1 + 65536 * b2 + 16777216 * b3
  if u < 2147483648 then (u : ℤ) else (u : ℤ) - 4294967296

/-- Bytes produced by a Python file read of count n: a negative count
reads to end of file, otherwise at most n bytes are returned. -/
def pyTake (n : ℤ) (bs : List ℕ) : List ℕ :=
  if n < 0 then bs else bs.take n.toNat

/-- Bytes left over after a Python file read of count n. -/
def pyDrop (n : ℤ) (bs : List ℕ) : List ℕ :=
  if n < 0 then [] else bs.drop n.toNat

/-- Group bytes into little-endian 32-bit words (the bit patterns of the
float32 values a struct unpack produces). -/
def bytesToWords : List ℕ → List ℕ
  | b0 :: b1 :: b2 :: b3 :: rest =>
      (b0 + 256 * b1 + 65536 * b2 + 16777216 * b3) :: bytesToWords rest
  | _ => []

/-- struct.unpack with format 10f: requires exactly 40 bytes and yields
the ten 32-bit words; anything else raises a struct error. -/
def unpack10f (bs : List ℕ) : Option (List ℕ) :=
  if bs.length = 40 then some (bytesToWords bs) else none

/-- The record-decoding loop of CorsikaPlotter._parse_particle_data
(lines 194-212): read a 4-byte length marker (end of stream if fewer than
4 bytes), read that many payload bytes (end of stream if fewer), read a
4-byte closing marker (end of stream if fewer), raise if the markers
differ, unpack the payload as ten float32 values and continue.  The
result is the list of records accumulated when the loop stops together
with the error that stopped it, if any. -/
def parseTracks : List ℕ → List (List ℕ) × Option DecodeErr
  | [] => ([], none)
  | [_] => ([], none)
  | [_, _] => ([], none)
  | [_, _, _] => ([], none)
  | b0 :: b1 :: b2 :: b3 :: rest =>
    let marker1 := int32OfBytes b0 b1 b2 b3
    let dataBytes := pyTake marker1 rest
    if (dataBytes.length : ℤ) < marker1 then ([], none)
    else
      let after := pyDrop marker1 rest
      if after.length < 4 then ([], none)
      else
        let marker2 := int32OfBytes (after.getD 0 0) (after.getD 1 0) (after.getD 2 0) (after.getD 3 0)
        if marker1 ≠ marker2 then ([], some (.markerMismatch marker1 marker2))
        else
          match unpack10f dataBytes with
          | none => ([], some .structError)
          | some track =>
            let res := parseTracks (after.drop 4)
            (track :: res.1, res.2)
termination_by bs => bs.length
decreasing_by
  simp only [List.length_cons, List.length_drop]
  have h1 : (pyDrop (int32OfBytes b0 b1 b2 b3) rest).length ≤ rest.length := by
    unfold pyDrop; split <;> simp
  omega

/-- Decoding one whole particle-track file: the loop either runs to end
of stream, giving the accumulated records, or raises, in which case the
whole file decode fails. -/
def readTrackFile (bs : List ℕ) : Except DecodeErr (List (List ℕ)) :=
  match parseTracks bs with
  | (_, some e) => .error e
  | (ts, none) => .ok ts

/-- Little-endian encoding of a record length marker. -/
def encodeInt32 (n : ℕ) : List ℕ :=
  [n % 256, n / 256 % 256, n / 65536 % 256, n / 16777216 % 256]

/-- A well-framed record: length marker, payload, matching length marker. -/
def encodeFrame (payload : List ℕ) : List ℕ :=
  encodeInt32 payload.length ++ payload ++ encodeInt32 payload.length

/-- A sequence of well-framed records. -/
def encodeFrames : List (List ℕ) → List ℕ
  | [] => []
  | p :: ps => encodeFrame p ++ encodeFrames ps

/-- A byte source that ends mid-marker (fewer than 4 bytes where a length
marker is expected), mid-payload (fewer payload bytes than the opening
marker declares) or mid-closing-marker (payload complete but fewer than
4 bytes remain). -/
def TruncatedTail (t : List ℕ) : Prop :=
  t.length < 4 ∨
  (∃ p0 p1 p2 p3 r, t = p0 :: p1 :: p2 :: p3 :: r ∧
      (r.length : ℤ) < int32OfBytes p0 p1 p2 p3) ∨
  (∃ p0 p1 p2 p3 r, t = p0 :: p1 :: p2 :: p3 :: r ∧
      0 ≤ int32OfBytes p0 p1 p2 p3 ∧
      int32OfBytes p0 p1 p2 p3 ≤ (r.length : ℤ) ∧
      (r.length : ℤ) - int32OfBytes p0 p1 p2 p3 < 4)

/-- A 40-byte all-zero payload (ten float32 zeros). -/
def zeros40 : List ℕ := List.replicate 40 0

/-- A pandas DataFrame over the track data: named columns and rows of
cells.  A cell is the 32-bit word of the stored float32 value, or none
for a missing value (the NaN a concat inserts for an absent column). -/
structure DF where
  cols : List String
  rows : List (List (Option ℕ))
deriving DecidableEq

/-- The fixed 10-name particle-track schema of _parse_particle_data. -/
def columns10 : List String :=
  ["particle_id", "energy_gev", "x_start", "y_start", "z_start",
   "t_start", "x_end", "y_end", "z_end", "t_end"]

/-- Whether a 32-bit word is a float32 NaN: exponent bits all set and a
non-zero mantissa. -/
def isNanWord (w : ℕ) : Bool :=
  (w / 8388608 % 256 == 255) && (w % 8388608 != 0)

/-- Whether a cell counts as missing for pandas: an absent value, or a
stored float32 NaN. -/
def cellNA (c : Option ℕ) : Bool :=
  match c with
  | none => true
  | some w => isNanWord w

/-- The value a row holds under a given column name. -/
def rowCell (cols : List String) (row : List (Option ℕ)) (c : String) : Option ℕ :=
  match (cols.zip row).find? (fun p => p.1 == c) with
  | some p => p.2
  | none => none

/-- Align a row onto a new column list, as pandas concat does: keep the
value of every column the row has, fill the rest with NaN. -/
def reindexRow (oldCols newCols : List String) (row : List (Option ℕ)) : List (Option ℕ) :=
  newCols.map (rowCell oldCols row)

/-- pandas concat of two frames with ignore_index: the result's columns
are the first frame's followed by the second's new ones, rows of both
frames aligned onto that union (missing entries become NaN). -/
def concatDF (d1 d2 : DF) : DF :=
  let cols := d1.cols ++ d2.cols.filter (fun c => !(d1.cols.contains c))
  ⟨cols, d1.rows.map (reindexRow d1.cols cols) ++ d2.rows.map (reindexRow d2.cols cols)⟩

/-- Whether every row of a frame is missing under a given column. -/
def colAllNA (df : DF) (c : String) : Bool :=
  df.rows.all (fun r => cellNA (rowCell df.cols r c))

/-- pandas dropna with axis 1 and how all: remove each column whose
values are missing in every row. -/
def dropAllNaN (df : DF) : DF :=
  let keep := df.cols.filter (fun c => !(colAllNA df c))
  ⟨keep, df.rows.map (reindexRow df.cols keep)⟩

/-- The frame built from one file's decoded records, before cleanup. -/
def mkTrackDF (tracks : List (List ℕ)) : DF :=
  ⟨columns10, tracks.map (fun t => t.map some)⟩

/-- The per-file loop of _parse_particle_data: skip absent files,
propagate a decode failure, skip files yielding no records, and for each
remaining file drop its all-NaN columns and concat it onto the table
accumulated so far. -/
def buildDF : DF → List (Option (List ℕ)) → Except DecodeErr DF
  | acc, [] => .ok acc
  | acc, none :: fs => buildDF acc fs
  | acc, some bs :: fs =>
    match readTrackFile bs with
    | .error e => .error e
    | .ok [] => buildDF acc fs
    | .ok (t :: ts) => buildDF (concatDF acc (dropAllNaN (mkTrackDF (t :: ts)))) fs

/-- CorsikaPlotter._parse_particle_data over the three optional
particle-track byte sources (em, muon, hadron), starting from the empty
frame that carries all ten schema columns. -/
def parseParticleData (files : List (Option (List ℕ))) : Except DecodeErr DF :=
  buildDF ⟨columns10, []⟩ files

/-- Modelled from the spec: the same per-file loop but with no per-file
cleanup, concatenating the raw frames. -/
def buildDFSpec : DF → List (Option (List ℕ)) → Except DecodeErr DF
  | acc, [] => .ok acc
  | acc, none :: fs => buildDFSpec acc fs
  | acc, some bs :: fs =>
    match readTrackFile bs with
    | .error e => .error e
    | .ok [] => buildDFSpec acc fs
    | .ok (t :: ts) => buildDFSpec (concatDF acc (mkTrackDF (t :: ts))) fs

/-- Modelled from the spec: the table build as the spec describes it,
with the all-NaN column drop applied exactly once, after all files have
been decoded and concatenated. -/
def parseParticleDataSpec (files : List (Option (List ℕ))) : Except DecodeErr DF :=
  Except.map dropAllNaN (buildDFSpec ⟨columns10, []⟩ files)

/-- A 40-byte payload whose sixth field (t_start) is a float32 NaN and
whose other nine fields are float32 zeros. -/
def nanPayload : List ℕ := List.replicate 20 0 ++ [0, 0, 192, 127] ++ List.replicate 16 0

/-- One well-framed record carrying nanPayload. -/
def c4Stream : List ℕ := encodeFrame nanPayload

/-- A directory with only an em track file, holding c4Stream. -/
def c4Files : List (Option (List ℕ)) := [some c4Stream, none, none]

/-- A well-framed 4-byte payload (one float32 zero), not 40 bytes. -/
def flat4 : List ℕ := [0, 0, 0, 0]

/-- The fixed name-to-species-id particle catalog shared by
CorsikaRunner.particle_map and CorsikaPlotter.particle_map. -/
def particle_map : List (String × ℕ) :=
  [("gamma", 1), ("electron", 2), ("positron", 3), ("muon", 5),
   ("antimuon", 6), ("proton", 14), ("helium", 402), ("lithium", 703),
   ("beryllium", 904), ("boron", 1105), ("carbon", 1206),
   ("nitrogen", 1407), ("oxygen", 1608), ("fluorine", 1909),
   ("neon", 2010), ("sodium", 2311), ("magnesium", 2412),
   ("aluminium", 2713), ("silicon", 2814), ("phosphorus", 3115),
   ("sulfur", 3216), ("chlorine", 3517), ("argon", 3618),
   ("potassium", 3919), ("calcium", 4020), ("scandium", 4321),
   ("titanium", 4422), ("vanadium", 4723), ("chromium", 4824),
   ("manganese", 5125), ("iron", 5626)]

/-- The whitespace characters Python str.strip removes by default. -/
def isPySpace (c : Char) : Bool :=
  c = ' ' || c = '\t' || c = '\n' || c = '\r' || c = '\x0b' || c = '\x0c'

/-- Python str.lower on the catalog's ASCII names. -/
def pyLower (s : String) : String := String.mk (s.toList.map Char.toLower)

/-- Python str.strip: remove leading and trailing whitespace. -/
def pyStrip (s : String) : String :=
  String.mk (((s.toList.dropWhile isPySpace).reverse.dropWhile isPySpace).reverse)

/-- CorsikaRunner._parse_particletype: lower-case and strip the name,
then look it up in the catalog; an unknown name is an error. -/
def _parse_particletype (particle_name : String) : Except String ℕ :=
  let n := pyStrip (pyLower particle_name)
  match (particle_map.find? (fun p => p.1 == n)).map Prod.snd with
  | some pid => .ok pid
  | none => .error ("Unknown primary particle name: " ++ n)

/-- np.histogram counts against an explicit edge array: every bin is
half-open except the last, which is closed on both ends. -/
def histogramCounts (data : List ℚ) (edges : List ℚ) : List ℕ :=
  (List.range (edges.length - 1)).map (fun i =>
    if i = edges.length - 2 then
      data.countP (fun z => decide (edges.getD i 0 ≤ z) && decide (z ≤ edges.getD (i + 1) 0))
    else
      data.countP (fun z => decide (edges.getD i 0 ≤ z) && decide (z < edges.getD (i + 1) 0)))

/-- np.argmax over a boolean array: the index of the first true entry,
or 0 when there is none. -/
def npArgmax (bs : List Bool) : ℕ := (List.findIdx? (fun b => b) bs).getD 0

/-- numpy array indexing with a possibly negative index: a negative
index wraps around from the end. -/
def npIndex (l : List ℚ) (i : ℤ) : ℚ :=
  if 0 ≤ i then l.getD i.toNat 0 else l.getD (l.length - i.natAbs) 0

/-- np.arange(0, 40, 1): the edges 0, 1, ..., 39. -/
def arange40 : List ℚ := (List.range 40).map (fun i => (Nat.cast i : ℚ))

/-- The 1e-5 rescaling of z_start applied before histogramming. -/
def zScale (z : ℚ) : ℚ := z * (1 / 100000)

/-- The z_start histogram of _get_showerstart_height. -/
def showerCounts (zs : List ℚ) : List ℕ :=
  histogramCounts (zs.map zScale) arange40

/-- CorsikaPlotter._get_showerstart_height over the table's z_start
column: histogram the rescaled heights into unit bins over [0, 39],
flip counts and edges, and index the flipped edges one before the first
bin whose count exceeds 10. -/
def _get_showerstart_height (zs : List ℚ) : ℚ :=
  npIndex arange40.reverse
    ((npArgmax ((showerCounts zs).reverse.map (fun c => decide (10 < c))) : ℤ) - 1)

/-- The synthetic track table of the shower-start test: z_start values
{0, 5, 15, 25, 35} x 1e5 plus eleven records at 20 x 1e5. -/
def c6Table : List ℚ :=
  [0, 500000, 1500000, 2500000, 3500000] ++ List.replicate 11 2000000

/-- np.arange(0, stop, step) for positive step, exactly in ℚ. -/
def pyArange0 (stop step : ℚ) : List ℚ :=
  (List.range (⌈stop / step⌉).toNat).map (fun k => (Nat.cast k : ℚ) * step)

/-- The bin edges of plot_particle_height_distribution:
np.arange(0, shower_start, 0.1) * 1e5. -/
def heightHistEdges (s : ℚ) : List ℚ :=
  (pyArange0 s (1 / 10)).map (fun e => e * 100000)

/-- Python str.replace removing every space character. -/
def removeSpaces (s : String) : String :=
  String.mk (s.toList.filter (fun c => c ≠ ' '))

/-- Python str.split on the plus sign: cut the character list at every
plus, keeping empty pieces. -/
def splitPlus : List Char → List (List Char)
  | [] => [[]]
  | c :: cs =>
    match splitPlus cs with
    | [] => [[c]]
    | g :: gs => if c = '+' then [] :: g :: gs else (c :: g) :: gs

/-- Split a caller-supplied group name such as electron+positron into
its member species names, spaces removed. -/
def splitGroup (s : String) : List String :=
  (splitPlus (removeSpaces s).toList).map String.mk

/-- Dictionary lookup in the particle catalog (no normalisation here:
plot_particle_height_distribution looks the raw subname up). -/
def particleMapLookup (n : String) : Option ℕ :=
  (particle_map.find? (fun p => p.1 == n)).map Prod.snd

/-- The two track fields the height distribution uses. -/
structure Track where
  pid : ℚ
  z_start : ℚ

/-- The height histogram of the records of one species. -/
def trackHist (tracks : List Track) (edges : List ℚ) (pid : ℚ) : List ℕ :=
  histogramCounts ((tracks.filter (fun t => decide (t.pid = pid))).map Track.z_start) edges

/-- The inner subname loop of plot_particle_height_distribution for one
colour group: accumulate the per-species height histograms; a subname
missing from the catalog raises (the printed warning is carried as the
error message), aborting the computation. -/
def groupCounts (tracks : List Track) (edges : List ℚ) (names : List String) :
    Except String (List ℕ) :=
  names.foldlM
    (fun acc name =>
      match particleMapLookup name with
      | none => .error ("Unknown particle type " ++ name)
      | some pid => .ok (List.zipWith (· + ·) acc (trackHist tracks edges pid)))
    (List.replicate (edges.length - 1) 0)

/-- The colour-group loop of plot_particle_height_distribution: compute
the shower start, bin every requested group; an exception in any group
aborts the whole loop. -/
def plotHeightGroups (tracks : List Track) (groups : List String) :
    Except String (List (List ℕ)) :=
  let edges := heightHistEdges (_get_showerstart_height (tracks.map Track.z_start))
  groups.mapM (fun g => groupCounts tracks edges (splitGroup g))

/-- The eight raw photon-bunch fields delivered by the container reader. -/
def rawPhotonColumns : List String :=
  ["x_impact_cm", "y_impact_cm", "cos_incident_x", "cos_incident_y",
   "time_since_first_interaction_ns", "emission_height_asl_cm", "photons",
   "wavelength_nm"]

/-- The photon-bunch table: named columns over rows of numeric cells. -/
structure PhotonDF where
  cols : List String
  rows : List (List ℚ)
deriving DecidableEq

/-- pandas DataFrame.drop of one column: remove the name and each row's
cell under it. -/
def dropColumnQ (df : PhotonDF) (c : String) : PhotonDF :=
  ⟨df.cols.filter (fun x => x != c),
   df.rows.map (fun r => ((df.cols.zip r).filter (fun p => p.1 != c)).map Prod.snd)⟩

/-- CorsikaPlotter._parse_cherenkov_data on the first event's first
photon-bunch array: name the eight raw fields, then drop the mis-decoded
photons column. -/
def _parse_cherenkov_data (bunches : List (Fin 8 → ℚ)) : PhotonDF :=
  dropColumnQ ⟨rawPhotonColumns, bunches.map (fun r => List.ofFn r)⟩ "photons"

/-- CorsikaPlotter._ring_area. -/
noncomputable def _ring_area (r_inner r_outer : ℝ) : ℝ :=
  Real.pi * (r_outer ^ 2 - r_inner ^ 2)

/-- The radial part of CorsikaPlotter._cartesian_to_polar (the angle is
unused by the density profile). -/
noncomputable def polarRadius (x y : ℝ) : ℝ := Real.sqrt (x ^ 2 + y ^ 2)

/-- A photon's polar impact radius after the 1e-2 cm-to-m rescaling. -/
noncomputable def impactR (p : ℝ × ℝ) : ℝ :=
  polarRadius (p.1 * (1 / 100)) (p.2 * (1 / 100))

/-- The i-th of the 200 logarithmically spaced radii of
np.logspace(log10 1, log10 800, 200): 800 to the power i/199. -/
noncomputable def logRadius (i : ℕ) : ℝ := (800 : ℝ) ^ ((i : ℝ) / 199)

/-- Photons whose impact radius falls in the half-open ring. -/
noncomputable def countInRing (photons : List (ℝ × ℝ)) (rIn rOut : ℝ) : ℕ :=
  photons.countP
    (fun q => @decide (rIn ≤ impactR q ∧ impactR q < rOut) (Classical.propDecidable _))

/-- The radial density loop of plot_ground_photon_density: pair the 200
log-spaced radii into 100 consecutive rings and report, per ring, its
centre (the mean of its bounds) and the photon count divided by the ring
area. -/
noncomputable def radialProfile (photons : List (ℝ × ℝ)) : List (ℝ × ℝ) :=
  (List.range 100).map (fun k =>
    ((logRadius (2 * k) + logRadius (2 * k + 1)) / 2,
      (countInRing photons (logRadius (2 * k)) (logRadius (2 * k + 1)) : ℝ) /
        _ring_area (logRadius (2 * k)) (logRadius (2 * k + 1))))

theorem int32OfBytes_encodeNat (n : ℕ) (h : n < 2147483648) :
    int32OfBytes (n % 256) (n / 256 % 256) (n / 65536 % 256) (n / 16777216 % 256) = (n : ℤ) := by
  have hu : n % 256 + 256 * (n / 256 % 256) + 65536 * (n / 65536 % 256) +
      16777216 * (n / 16777216 % 256) = n := by omega
  simp only [int32OfBytes, hu]
  simp [h]

theorem pyTake_natCast (n : ℕ) (bs : List ℕ) : pyTake (n : ℤ) bs = bs.take n := by
  unfold pyTake
  rw [if_neg (by omega : ¬ ((n : ℤ) < 0)), Int.toNat_natCast]

theorem pyDrop_natCast (n : ℕ) (bs : List ℕ) : pyDrop (n : ℤ) bs = bs.drop n := by
  unfold pyDrop
  rw [if_neg (by omega : ¬ ((n : ℤ) < 0)), Int.toNat_natCast]

theorem parseTracks_frame (p rest : List ℕ) (hlt : p.length < 2147483648) :
    parseTracks (encodeFrame p ++ rest) =
      match unpack10f p with
      | some w => (w :: (parseTracks rest).1, (parseTracks rest).2)
      | none => ([], some .structError) := by
  have hm := int32OfBytes_encodeNat p.length hlt
  have htake : pyTake (p.length : ℤ) (p ++ (encodeInt32 p.length ++ rest)) = p := by
    rw [pyTake_natCast]
    exact List.take_left p _
  have hdrop : pyDrop (p.length : ℤ) (p ++ (encodeInt32 p.length ++ rest)) =
      encodeInt32 p.length ++ rest := by
    rw [pyDrop_natCast]
    exact List.drop_left p _
  have hafterlen : ¬ ((encodeInt32 p.length ++ rest).length < 4) := by
    simp [encodeInt32]
  have hg0 : (encodeInt32 p.length ++ rest).getD 0 0 = p.length % 256 := by
    simp [encodeInt32]
  have hg1 : (encodeInt32 p.length ++ rest).getD 1 0 = p.length / 256 % 256 := by
    simp [encodeInt32]
  have hg2 : (encodeInt32 p.length ++ rest).getD 2 0 = p.length / 65536 % 256 := by
    simp [encodeInt32]
  have hg3 : (encodeInt32 p.length ++ rest).getD 3 0 = p.length / 16777216 % 256 := by
    simp [encodeInt32]
  have hdrop4 : (encodeInt32 p.length ++ rest).drop 4 = rest := by
    simp [encodeInt32]
  have hcons : encodeFrame p ++ rest =
      p.length % 256 :: p.length / 256 % 256 :: p.length / 65536 % 256 ::
        p.length / 16777216 % 256 :: (p ++ (encodeInt32 p.length ++ rest)) := by
    simp [encodeFrame, encodeInt32]
  rw [hcons]
  simp only [parseTracks]
  rw [hm, htake, hdrop]
  simp only [hafterlen, hg0, hg1, hg2, hg3, hdrop4, hm, lt_self_iff_false, if_false,
    ite_false, ne_eq, not_true_eq_false, eq_self_iff_true, if_true, ite_true, not_false_iff]
  cases unpack10f p <;> rfl

theorem parseTracks_frame_ok (p rest : List ℕ) (h : p.length = 40) :
    parseTracks (encodeFrame p ++ rest) =
      (bytesToWords p :: (parseTracks rest).1, (parseTracks rest).2) := by
  rw [parseTracks_frame p rest (by omega)]
  simp [unpack10f, h]

theorem parseTracks_frame_err (p rest : List ℕ) (h : p.length ≠ 40)
    (h2 : p.length < 2147483648) :
    parseTracks (encodeFrame p ++ rest) = ([], some DecodeErr.structError) := by
  rw [parseTracks_frame p rest h2]
  simp [unpack10f, h]

theorem parseTracks_short (t : List ℕ) (h : t.length < 4) : parseTracks t = ([], none) := by
  rcases t with _ | ⟨a, _ | ⟨b, _ | ⟨c, _ | ⟨d, r⟩⟩⟩⟩
  · simp [parseTracks]
  · simp [parseTracks]
  · simp [parseTracks]
  · simp [parseTracks]
  · simp only [List.length_cons] at h; omega

theorem parseTracks_truncated (t : List ℕ) (h : TruncatedTail t) :
    parseTracks t = ([], none) := by
  rcases h with h | ⟨p0, p1, p2, p3, r, rfl, hlt⟩ | ⟨p0, p1, p2, p3, r, rfl, h0, h1, h2⟩
  · exact parseTracks_short t h
  · simp only [parseTracks]
    set n := int32OfBytes p0 p1 p2 p3 with hn
    have hnn : ¬ (n < 0) := by omega
    have htk : pyTake n r = r.take n.toNat := by
      unfold pyTake; rw [if_neg hnn]
    rw [htk]
    have hc1 : ((r.take n.toNat).length : ℤ) < n := by
      rw [List.length_take]
      push_cast
      omega
    rw [if_pos hc1]
  · simp only [parseTracks]
    set n := int32OfBytes p0 p1 p2 p3 with hn
    have hnn : ¬ (n < 0) := by omega
    have htk : pyTake n r = r.take n.toNat := by
      unfold pyTake; rw [if_neg hnn]
    have hdp : pyDrop n r = r.drop n.toNat := by
      unfold pyDrop; rw [if_neg hnn]
    rw [htk, hdp]
    have hc1 : ¬ (((r.take n.toNat).length : ℤ) < n) := by
      rw [List.length_take]
      push_cast
      omega
    rw [if_neg hc1]
    have hc2 : (r.drop n.toNat).length < 4 := by
      rw [List.length_drop]
      omega
    rw [if_pos hc2]

theorem parseTracks_corrupt (c junk : List ℕ) (m : ℕ)
    (hc : c.length < 2147483648) (hm : m < 2147483648) (hne : m ≠ c.length) :
    parseTracks (encodeInt32 c.length ++ c ++ encodeInt32 m ++ junk) =
      ([], some (.markerMismatch (c.length : ℤ) (m : ℤ))) := by
  have h1 := int32OfBytes_encodeNat c.length hc
  have h2 := int32OfBytes_encodeNat m hm
  have htake : pyTake (c.length : ℤ) (c ++ (encodeInt32 m ++ junk)) = c := by
    rw [pyTake_natCast]
    exact List.take_left c _
  have hdrop : pyDrop (c.length : ℤ) (c ++ (encodeInt32 m ++ junk)) =
      encodeInt32 m ++ junk := by
    rw [pyDrop_natCast]
    exact List.drop_left c _
  have hafterlen : ¬ ((encodeInt32 m ++ junk).length < 4) := by
    simp [encodeInt32]
  have hg0 : (encodeInt32 m ++ junk).getD 0 0 = m % 256 := by simp [encodeInt32]
  have hg1 : (encodeInt32 m ++ junk).getD 1 0 = m / 256 % 256 := by simp [encodeInt32]
  have hg2 : (encodeInt32 m ++ junk).getD 2 0 = m / 65536 % 256 := by simp [encodeInt32]
  have hg3 : (encodeInt32 m ++ junk).getD 3 0 = m / 16777216 % 256 := by simp [encodeInt32]
  have hcons : encodeInt32 c.length ++ c ++ encodeInt32 m ++ junk =
      c.length % 256 :: c.length / 256 % 256 :: c.length / 65536 % 256 ::
        c.length / 16777216 % 256 :: (c ++ (encodeInt32 m ++ junk)) := by
    simp [encodeInt32]
  rw [hcons]
  simp only [parseTracks]
  rw [h1, htake, hdrop]
  have hneq : ((c.length : ℤ) ≠ (m : ℤ)) := by
    exact_mod_cast fun hx => hne (by omega)
  simp only [hafterlen, hg0, hg1, hg2, hg3, h2, lt_self_iff_false, if_false, ite_false,
    if_neg, not_false_iff]
  rw [if_pos hneq]

/-- C1: for every byte source made of well-framed 40-byte records followed
by a tail truncated mid-marker, mid-payload or mid-closing-marker, the
record decoder yields exactly the records fully readable before the
truncation point and terminates without signalling any error. -/
theorem c1_truncated_source_no_error (ps : List (List ℕ)) (t : List ℕ)
    (hps : ∀ p ∈ ps, p.length = 40) (ht : TruncatedTail t) :
    parseTracks (encodeFrames ps ++ t) = (ps.map bytesToWords, none) := by
  induction ps with
  | nil => simpa [encodeFrames] using parseTracks_truncated t ht
  | cons p ps ih =>
    have hp : p.length = 40 := hps p (List.mem_cons_self p ps)
    have hih := ih (fun q hq => hps q (List.mem_cons_of_mem p hq))
    simp only [encodeFrames, List.append_assoc]
    rw [parseTracks_frame_ok p _ hp, hih]
    simp

theorem c1_witness :
    parseTracks (encodeFrames [zeros40] ++ [0, 0]) = ([bytesToWords zeros40], none) :=
  c1_truncated_source_no_error [zeros40] [0, 0]
    (by intro p hp; rw [List.mem_singleton] at hp; subst hp; simp [zeros40])
    (Or.inl (by simp))

/-- C2: for every byte source whose well-framed records are followed by a
record whose closing marker is read successfully but differs from its
opening marker, the decoder yields all prior valid records and then fails
with the record-integrity error; no record comes from the corrupt region
and the particle-track table build aborts with that error. -/
theorem c2_marker_mismatch_aborts_file (ps : List (List ℕ)) (c junk : List ℕ) (m : ℕ)
    (hps : ∀ p ∈ ps, p.length = 40) (hc : c.length < 2147483648)
    (hm : m < 2147483648) (hne : m ≠ c.length) :
    parseTracks (encodeFrames ps ++ (encodeInt32 c.length ++ c ++ encodeInt32 m ++ junk)) =
      (ps.map bytesToWords, some (.markerMismatch (c.length : ℤ) (m : ℤ))) ∧
    readTrackFile (encodeFrames ps ++ (encodeInt32 c.length ++ c ++ encodeInt32 m ++ junk)) =
      .error (.markerMismatch (c.length : ℤ) (m : ℤ)) ∧
    parseParticleData
        [some (encodeFrames ps ++ (encodeInt32 c.length ++ c ++ encodeInt32 m ++ junk)),
         none, none] =
      .error (.markerMismatch (c.length : ℤ) (m : ℤ)) := by
  have hparse : parseTracks
      (encodeFrames ps ++ (encodeInt32 c.length ++ c ++ encodeInt32 m ++ junk)) =
      (ps.map bytesToWords, some (.markerMismatch (c.length : ℤ) (m : ℤ))) := by
    induction ps with
    | nil => simpa [encodeFrames] using parseTracks_corrupt c junk m hc hm hne
    | cons p ps ih =>
      have hp : p.length = 40 := hps p (List.mem_cons_self p ps)
      have hih := ih (fun q hq => hps q (List.mem_cons_of_mem p hq))
      simp only [encodeFrames, List.append_assoc]
      simp only [encodeFrames, List.append_assoc] at hih
      rw [parseTracks_frame_ok p _ hp, hih]
      simp
  have hparse' := hparse
  simp only [List.append_assoc] at hparse'
  refine ⟨hparse, ?_, ?_⟩
  · simp [readTrackFile, hparse']
  · simp [parseParticleData, buildDF, readTrackFile, hparse']

theorem c2_witness :
    parseTracks (encodeInt32 0 ++ encodeInt32 1) = ([], some (.markerMismatch 0 1)) ∧
    readTrackFile (encodeInt32 0 ++ encodeInt32 1) = .error (.markerMismatch 0 1) ∧
    parseParticleData [some (encodeInt32 0 ++ encodeInt32 1), none, none] =
      .error (.markerMismatch 0 1) := by
  simpa [encodeFrames] using
    c2_marker_mismatch_aborts_file [] [] [] 1 (by simp) (by simp) (by norm_num) (by simp)

/-- C3 as stated fails on the code: on a well-framed record declaring 4
payload bytes the decoder raises a struct unpack error and yields nothing,
instead of reinterpreting the 4 declared bytes into a record for the
consumer to reject. -/
theorem c3_counterexample :
    parseTracks (encodeFrame flat4) = ([], some DecodeErr.structError) ∧
    parseTracks (encodeFrame flat4) ≠ ([bytesToWords flat4], none) := by
  have h : parseTracks (encodeFrame flat4 ++ []) = ([], some DecodeErr.structError) :=
    parseTracks_frame_err flat4 [] (by decide) (by decide)
  rw [List.append_nil] at h
  exact ⟨h, by rw [h]; simp⟩

/-- C3 amended: the decoder hard-codes the ten-float32 (40-byte) layout;
for every well-framed record whose declared payload length differs from
40 the decoder itself fails with a struct unpack error, producing no
record, rather than leaving the field-count check to the table builder. -/
theorem c3_amended_decoder_hardcodes_layout (p rest : List ℕ) (h : p.length ≠ 40)
    (h2 : p.length < 2147483648) :
    parseTracks (encodeFrame p ++ rest) = ([], some DecodeErr.structError) :=
  parseTracks_frame_err p rest h h2

theorem c3_witness :
    parseTracks (encodeFrame flat4 ++ [9]) = ([], some DecodeErr.structError) :=
  c3_amended_decoder_hardcodes_layout flat4 [9] (by decide) (by decide)

theorem parseTracks_nil : parseTracks [] = ([], none) := by
  simp [parseTracks]

theorem readTrackFile_c4 : readTrackFile c4Stream = .ok [bytesToWords nanPayload] := by
  have h : parseTracks (encodeFrame nanPayload ++ []) =
      (bytesToWords nanPayload :: (parseTracks []).1, (parseTracks []).2) :=
    parseTracks_frame_ok nanPayload [] (by decide)
  rw [List.append_nil, parseTracks_nil] at h
  simp [readTrackFile, c4Stream, h]

/-- C4 fails on the code: the all-NaN column drop is applied per file,
not once after concatenation; on a single file holding one record whose
t_start field is NaN, the table the code builds differs from the table
the spec's once-after-concatenation cleanup would build. -/
theorem c4_counterexample :
    parseParticleData c4Files ≠ parseParticleDataSpec c4Files := by
  have hL : parseParticleData c4Files =
      .ok (concatDF ⟨columns10, []⟩ (dropAllNaN (mkTrackDF [bytesToWords nanPayload]))) := by
    simp [parseParticleData, buildDF, c4Files, readTrackFile_c4]
  have hR : parseParticleDataSpec c4Files =
      .ok (dropAllNaN (concatDF ⟨columns10, []⟩ (mkTrackDF [bytesToWords nanPayload]))) := by
    simp [parseParticleDataSpec, buildDFSpec, c4Files, readTrackFile_c4, Except.map]
  rw [hL, hR]
  intro h
  exact absurd (Except.ok.inj h) (by decide)

theorem concatDF_cols_sub (d1 d2 : DF) (h : ∀ c ∈ d2.cols, c ∈ d1.cols) :
    (concatDF d1 d2).cols = d1.cols := by
  simp only [concatDF]
  have : d2.cols.filter (fun c => !(d1.cols.contains c)) = [] := by
    rw [List.filter_eq_nil_iff]
    intro a ha
    simp [List.contains, List.elem_eq_mem, h a ha]
  rw [this, List.append_nil]

theorem buildDF_cols (fs : List (Option (List ℕ))) :
    ∀ acc df, acc.cols = columns10 → buildDF acc fs = .ok df → df.cols = columns10 := by
  induction fs with
  | nil =>
    intro acc df hacc h
    simp only [buildDF] at h
    cases h
    exact hacc
  | cons f fs ih =>
    intro acc df hacc h
    match f with
    | none =>
      exact ih acc df hacc h
    | some bs =>
      simp only [buildDF] at h
      cases hr : readTrackFile bs with
      | error e => rw [hr] at h; cases h
      | ok ts =>
        rw [hr] at h
        cases ts with
        | nil => exact ih acc df hacc h
        | cons t ts =>
          refine ih _ df ?_ h
          rw [concatDF_cols_sub _ _ ?_, hacc]
          intro c hc
          simp only [dropAllNaN, mkTrackDF] at hc
          rw [hacc]
          exact (List.mem_filter.mp hc).1

/-- C4 amended: the all-NaN column drop happens per file before
concatenation, and concatenation aligns every file onto the initial
empty frame that carries all ten schema columns, so any dropped column
reappears as all-NaN and every successfully built particle-track table
has exactly the ten schema columns. -/
theorem c4_amended_full_schema (files : List (Option (List ℕ))) (df : DF)
    (h : parseParticleData files = .ok df) : df.cols = columns10 :=
  buildDF_cols files ⟨columns10, []⟩ df rfl h

theorem c4_witness : (DF.mk columns10 []).cols = columns10 :=
  c4_amended_full_schema [none, none, none] ⟨columns10, []⟩ (by rfl)

/-- C5 (code bug): issued the unknown species unobtainium ahead of the
valid species proton, the colour-group loop of
plot_particle_height_distribution raises right after printing its
warning, so the whole computation aborts and the valid proton group
produces no result, instead of the offending group being skipped and the
remaining groups still being computed. -/
theorem c5_unknown_species_aborts :
    plotHeightGroups [] ["unobtainium", "proton"] =
      .error "Unknown particle type unobtainium" := by
  rfl

/-- C6: on the synthetic table with z_start values {0, 5, 15, 25, 35} x
1e5 plus eleven records at 20 x 1e5, the shower-start computation returns
a value at or above 15 and strictly below 25 in the display unit. -/
theorem c6_shower_start_bounds :
    15 ≤ _get_showerstart_height c6Table ∧ _get_showerstart_height c6Table < 25 := by
  have hmap : c6Table.map zScale = [0, 5, 15, 25, 35] ++ List.replicate 11 20 := by
    simp only [c6Table, zScale, List.map_append, List.map_cons, List.map_nil,
      List.map_replicate]
    norm_num
  unfold _get_showerstart_height showerCounts
  rw [hmap]
  decide

/-- C8: whatever rows the container delivers, the produced photon-bunch
table exposes exactly the seven retained named fields, the mis-decoded
photons column always having been dropped. -/
theorem c8_photon_table_seven_columns (bunches : List (Fin 8 → ℚ)) :
    (_parse_cherenkov_data bunches).cols =
      ["x_impact_cm", "y_impact_cm", "cos_incident_x", "cos_incident_y",
       "time_since_first_interaction_ns", "emission_height_asl_cm",
       "wavelength_nm"] := by
  rfl

/-- C9: the catalog lookup lower-cases and strips its argument before the
table lookup, so Proton, padded proton and plain proton all resolve to
id 14, while unobtainium fails with the unknown-particle error. -/
theorem c9_catalog_lookup_normalises :
    _parse_particletype "Proton" = .ok 14 ∧
    _parse_particletype " proton " = .ok 14 ∧
    _parse_particletype "proton" = .ok 14 ∧
    _parse_particletype "unobtainium" =
      .error "Unknown primary particle name: unobtainium" :=
  ⟨rfl, rfl, rfl, rfl⟩

/-- C10: whenever no histogram bin exceeds the count threshold 10, or
the first bin of the descending scan is the one exceeding it, the
argmax-minus-one indexing wraps around to the last flipped edge and the
shower-start computation returns 0, the lowest bin edge. -/
theorem c10_threshold_boundary (zs : List ℚ)
    (h : (∀ c ∈ showerCounts zs, c ≤ 10) ∨ 10 < (showerCounts zs).getLast?.getD 0) :
    _get_showerstart_height zs = 0 := by
  have hlen : (showerCounts zs).length = 39 := by
    unfold showerCounts histogramCounts
    rw [List.length_map, List.length_range]
    unfold arange40
    rw [List.length_map, List.length_range]
  have hargmax : npArgmax ((showerCounts zs).reverse.map (fun c => decide (10 < c))) = 0 := by
    rcases h with h | h
    · have hnone : List.findIdx? (fun b => b)
          ((showerCounts zs).reverse.map (fun c => decide (10 < c))) = none := by
        rw [List.findIdx?_eq_none_iff]
        intro x hx
        simp only [List.mem_map, List.mem_reverse] at hx
        obtain ⟨cc, hcc, rfl⟩ := hx
        simpa using h cc hcc
      unfold npArgmax
      rw [hnone]
      rfl
    · obtain ⟨cc, cs, hcs⟩ : ∃ cc cs, (showerCounts zs).reverse = cc :: cs := by
        cases hrev : (showerCounts zs).reverse with
        | nil =>
          exfalso
          have hl := congrArg List.length hrev
          rw [List.length_reverse, hlen] at hl
          simp at hl
        | cons cc cs => exact ⟨cc, cs, rfl⟩
      have hcc10 : 10 < cc := by
        have h1 : (showerCounts zs).getLast? = some cc := by
          rw [← List.head?_reverse, hcs]
          rfl
        rw [h1] at h
        simpa using h
      unfold npArgmax
      rw [hcs]
      simp [List.findIdx?_cons, hcc10]
  simp only [_get_showerstart_height, hargmax]
  decide

theorem c10_witness : _get_showerstart_height [] = 0 :=
  c10_threshold_boundary [] (Or.inl (by decide))

theorem logRadius_pos (i : ℕ) : 0 < logRadius i :=
  Real.rpow_pos_of_pos (by norm_num) _

theorem logRadius_strictMono (i j : ℕ) (h : i < j) : logRadius i < logRadius j := by
  unfold logRadius
  rw [Real.rpow_lt_rpow_left_iff (by norm_num : (1 : ℝ) < 800)]
  have hij : (i : ℝ) < (j : ℝ) := by exact_mod_cast h
  gcongr

theorem ring_area_pos (k : ℕ) :
    0 < _ring_area (logRadius (2 * k)) (logRadius (2 * k + 1)) := by
  unfold _ring_area
  have h1 : logRadius (2 * k) < logRadius (2 * k + 1) := logRadius_strictMono _ _ (by omega)
  have h2 : 0 < logRadius (2 * k) := logRadius_pos _
  have hpi := Real.pi_pos
  have hsq : logRadius (2 * k) ^ 2 < logRadius (2 * k + 1) ^ 2 := by nlinarith
  have hsub : 0 < logRadius (2 * k + 1) ^ 2 - logRadius (2 * k) ^ 2 := by linarith
  exact mul_pos hpi hsub

/-- C7: for every photon table, the radial density profile built from the
200 log-spaced radii paired into 100 consecutive rings has its (centre,
density) points ordered by strictly increasing radius, and every density
is non-negative. -/
theorem c7_radial_profile_sorted_nonneg (photons : List (ℝ × ℝ)) :
    List.Chain' (fun a b : ℝ × ℝ => a.1 < b.1) (radialProfile photons) ∧
    ∀ q ∈ radialProfile photons, 0 ≤ q.2 := by
  constructor
  · unfold radialProfile
    rw [List.chain'_map, show (100 : ℕ) = 99 + 1 from rfl, List.chain'_range_succ]
    intro m hm
    simp only
    have h1 : logRadius (2 * m) < logRadius (2 * (m + 1)) :=
      logRadius_strictMono _ _ (by omega)
    have h2 : logRadius (2 * m + 1) < logRadius (2 * (m + 1) + 1) :=
      logRadius_strictMono _ _ (by omega)
    linarith
  · intro q hq
    unfold radialProfile at hq
    rw [List.mem_map] at hq
    obtain ⟨k, hk, rfl⟩ := hq
    simp only
    exact div_nonneg (Nat.cast_nonneg _) (le_of_lt (ring_area_pos k))

end Showerpy
